import Mathlib

/-!
# Verification of the book-denoising pipeline

Shallow embedding of `book_denoiser.py`: line classifiers
(`is_page_number`, `is_separator`, `is_isbn_line`, `is_publisher_line`),
the repeated-short-line frequency analyzer, the table-of-contents locator
(`detect_toc_section`), the bibliography-section locator
(`is_bibliography_section_start`) and the driving `clean_book` loop.

Lines are modelled as Lean `String`s (sequences of Unicode code points,
matching Python's `str`).  Python's text operations are embedded over the
underlying `List Char`:

* `str.strip()` strips whitespace; ASCII whitespace suffices for the
  character classes this program manipulates (`pyIsSpace`);
* `str.lower()` is modelled for ASCII letters plus the Polish uppercase
  letters that occur in the source's regexes (`pyLowerChar`);
* `str.isdigit()` is modelled as ASCII decimal digits;
* the regexes of the source are compiled by hand into deterministic
  scanners; each definition notes why the greedy scan is equivalent to
  the backtracking regex on the character classes involved.
-/

namespace BookDenoiser

/-- Python `\s` / `str.strip` whitespace, restricted to the ASCII range. -/
def pyIsSpace (c : Char) : Bool :=
  c == ' ' || c == '\t' || c == '\n' || c == '\r' || c == '\x0b' || c == '\x0c'

/-- ASCII decimal digit, modelling Python `str.isdigit` on this corpus. -/
def isAsciiDigit (c : Char) : Bool :=
  '0' ≤ c && c ≤ '9'

def isUpperAscii (c : Char) : Bool :=
  'A' ≤ c && c ≤ 'Z'

def isLowerAscii (c : Char) : Bool :=
  'a' ≤ c && c ≤ 'z'

/-- The Polish uppercase letters named in the source's character classes. -/
def polishUpper : List Char := ['Ą', 'Ć', 'Ę', 'Ł', 'Ń', 'Ó', 'Ś', 'Ź', 'Ż']

def polishLower : List Char := ['ą', 'ć', 'ę', 'ł', 'ń', 'ó', 'ś', 'ź', 'ż']

/-- The class `[A-ZĄĆĘŁŃÓŚŹŻ]` from the source. -/
def isUpperPL (c : Char) : Bool :=
  isUpperAscii c || polishUpper.contains c

/-- The class `[a-ząćęłńóśźż]` from the source. -/
def isLowerPL (c : Char) : Bool :=
  isLowerAscii c || polishLower.contains c

/-- Python `str.lower`, for ASCII letters and the Polish letters used by
the program; all other characters are untouched. -/
def pyLowerChar (c : Char) : Char :=
  if 'A' ≤ c && c ≤ 'Z' then Char.ofNat (c.toNat + 32)
  else if c == 'Ą' then 'ą'
  else if c == 'Ć' then 'ć'
  else if c == 'Ę' then 'ę'
  else if c == 'Ł' then 'ł'
  else if c == 'Ń' then 'ń'
  else if c == 'Ó' then 'ó'
  else if c == 'Ś' then 'ś'
  else if c == 'Ź' then 'ź'
  else if c == 'Ż' then 'ż'
  else c

def pyLower (s : String) : String :=
  String.mk (s.data.map pyLowerChar)

/-- Python `str.strip()`: drop whitespace from both ends. -/
def pyStrip (s : String) : String :=
  String.mk (((s.data.dropWhile pyIsSpace).reverse.dropWhile pyIsSpace).reverse)

/-- Python `line.rstrip("\n")`: drop trailing newline characters. -/
def rstripNL (s : String) : String :=
  String.mk ((s.data.reverse.dropWhile (fun c => c == '\n')).reverse)

/-- `pre` is a prefix of the second list (Python `str.startswith` /
the literal part of a regex match). -/
def startsWithL : List Char → List Char → Bool
  | [], _ => true
  | _ :: _, [] => false
  | p :: ps, c :: cs => p == c && startsWithL ps cs

/-- Python's `pat in s` substring test. -/
def containsSub (pat : List Char) : List Char → Bool
  | [] => startsWithL pat []
  | c :: cs => startsWithL pat (c :: cs) || containsSub pat cs

/-- `line.strip()` is blank. -/
def blankS (s : String) : Bool :=
  (pyStrip s).data.isEmpty

/-! ## Line classifiers -/

/-- `is_page_number`: strip the line, delete every dash-like or whitespace
character (the regex `re.sub(r"[–\-—\s]", "", s)`), and require the result
to be non-empty, all digits, and at most 4 characters. -/
def is_page_number (line : String) : Bool :=
  let s := (pyStrip line).data.filter
    (fun c => !(c == '–' || c == '-' || c == '—' || pyIsSpace c))
  !s.isEmpty && s.all isAsciiDigit && decide (s.length ≤ 4)

/-- `is_separator`: lines containing `===` are excluded (reserved marker);
otherwise the stripped line must fully match `[*\-–—•·\.]{3,}`. -/
def is_separator (line : String) : Bool :=
  let s := (pyStrip line).data
  if containsSub ("===".data) s then false
  else decide (3 ≤ s.length) &&
    s.all (fun c =>
      c == '*' || c == '-' || c == '–' || c == '—' || c == '•' || c == '·' || c == '.')

/-- `is_isbn_line`: the lowercased line contains `"isbn"`, or has at least
10 digits and at least 2 hyphens. -/
def is_isbn_line (line : String) : Bool :=
  let s := (pyLower line).data
  if containsSub ("isbn".data) s then true
  else decide (10 ≤ (s.filter isAsciiDigit).length) &&
    decide (2 ≤ (s.filter (fun c => c == '-')).length)

def publisherPatterns : List String :=
  ["wydawnictwo", "drukarnia", "copyright", "all rights reserved",
   "project gutenberg", "zabezpieczony znakiem wodnym", "plik jest zabezpieczony"]

/-- `is_publisher_line`: the lowercased stripped line contains one of the
fixed boilerplate phrases. -/
def is_publisher_line (line : String) : Bool :=
  let s := (pyStrip (pyLower line)).data
  publisherPatterns.any (fun p => containsSub p.data s)

/-! ## Frequency analyzer (`detect_repeated_short_lines`) -/

/-- Number of document lines whose stripped text equals `t`
(the `Counter` of `detect_repeated_short_lines` keyed at `t`). -/
def countTrim (lines : List String) (t : String) : Nat :=
  lines.countP (fun l => pyStrip l == t)

/-- `raw.strip() in detect_repeated_short_lines(lines)` with the default
parameters `max_len = 60`, `min_freq = 5`: the stripped text is non-empty,
at most 60 characters long, and occurs at least 5 times. -/
def repeatedShortMember (lines : List String) (raw : String) : Bool :=
  let s := pyStrip raw
  !s.data.isEmpty && decide (s.data.length ≤ 60) && decide (5 ≤ countTrim lines s)

/-! ## Bibliography locator (`is_bibliography_section_start`) -/

def BIBLIO_KEYWORDS : List String :=
  ["bibliografia", "przypisy", "references", "bibliography", "spis literatury", "notes"]

/-- The part of the header regex after the optional `rozdział` group:
`\d*\.?\s*KW[\s\.:;]*` (fullmatch).  The greedy scan is exact: the
character classes digit / `.` / whitespace / the keyword's leading letter
are pairwise disjoint at every choice point, so the backtracking regex
accepts iff the maximal-munch scan does. -/
def matchKwTail (kw s : List Char) : Bool :=
  let s1 := s.dropWhile isAsciiDigit
  let s2 := match s1 with
    | '.' :: t => t
    | other => other
  let s3 := s2.dropWhile pyIsSpace
  startsWithL kw s3 &&
    (s3.drop kw.length).all (fun c => pyIsSpace c || c == '.' || c == ':' || c == ';')

/-- `re.fullmatch(rf"(rozdział\s+)?\d*\.?\s*{kw}[\s\.:;]*", s)`.  Both
alternatives of the optional group are tried; inside the group, `\s+` is
taken maximally, which is exact because any whitespace left over could
only be re-absorbed by the `\s*` of the tail at the same final position. -/
def matchKw (kw s : List Char) : Bool :=
  matchKwTail kw s ||
  (startsWithL ("rozdział".data) s &&
    (match s.drop ("rozdział".data).length with
     | c :: t => pyIsSpace c && matchKwTail kw (t.dropWhile pyIsSpace)
     | [] => false))

/-- The header-shape test of `is_bibliography_section_start`: the stripped
lowercased line equals a bibliography keyword or matches the keyword
regex. -/
def headerShape (s : List Char) : Bool :=
  BIBLIO_KEYWORDS.any (fun kw => s == kw.data || matchKw kw.data s)

/-- `re.search(r"\(\d{4}\)", nl)`: some position starts `(` + 4 digits + `)`. -/
def hasParenYear : List Char → Bool
  | [] => false
  | c :: rest =>
    (c == '(' &&
      match rest with
      | a :: b :: d :: e :: f :: _ =>
        isAsciiDigit a && isAsciiDigit b && isAsciiDigit d && isAsciiDigit e && f == ')'
      | _ => false) || hasParenYear rest

/-- `re.search(r"\d{4}[,\.]", nl)`: some position starts 4 digits followed
by `,` or `.`. -/
def hasYearPunct : List Char → Bool
  | [] => false
  | a :: rest =>
    (isAsciiDigit a &&
      match rest with
      | b :: c :: d :: e :: _ =>
        isAsciiDigit b && isAsciiDigit c && isAsciiDigit d && (e == ',' || e == '.')
      | _ => false) || hasYearPunct rest

/-- After `[A-Z][a-z]+,\s` was consumed: zero or more further whitespace,
then `[A-Z]\.`. -/
def p3Sp : List Char → Bool
  | [] => false
  | c :: rest =>
    if pyIsSpace c then p3Sp rest
    else isUpperAscii c &&
      (match rest with
       | d :: _ => d == '.'
       | [] => false)

/-- After `[A-Z][a-z]` was consumed: the rest of `[a-z]+,\s+[A-Z]\.`.
Maximal munch on `[a-z]+` and `\s+` is exact (next literal is `,`,
resp. `[A-Z]`, disjoint from the repeated class). -/
def p3Low : List Char → Bool
  | [] => false
  | c :: rest =>
    if isLowerAscii c then p3Low rest
    else c == ',' &&
      (match rest with
       | e :: rest2 => pyIsSpace e && p3Sp rest2
       | [] => false)

/-- `[A-Z][a-z]+,\s+[A-Z]\.` anchored at the head of the list. -/
def p3At : List Char → Bool
  | a :: b :: rest => isUpperAscii a && isLowerAscii b && p3Low rest
  | _ => false

/-- `re.search(r"[A-Z][a-z]+,\s+[A-Z]\.", nl)` (e.g. `Kowalski, J.`). -/
def hasP3 : List Char → Bool
  | [] => false
  | c :: rest => p3At (c :: rest) || hasP3 rest

/-- After the space and `[A-ZPL][a-zPL]` of the second word: the rest of
`[a-zPL]+,`. -/
def p4Low2 : List Char → Bool
  | [] => false
  | c :: rest =>
    if isLowerPL c then p4Low2 rest
    else c == ','

/-- The second word `[A-ZPL][a-zPL]+,` anchored at the head. -/
def p4Word2 : List Char → Bool
  | a :: b :: rest => isUpperPL a && isLowerPL b && p4Low2 rest
  | _ => false

/-- After `[A-ZPL][a-zPL]` of the first word: the rest of
`[a-zPL]+ [A-ZPL][a-zPL]+,` (the space is a literal space). -/
def p4Low1 : List Char → Bool
  | [] => false
  | c :: rest =>
    if isLowerPL c then p4Low1 rest
    else c == ' ' && p4Word2 rest

/-- `[A-ZĄĆĘŁŃÓŚŹŻ][a-ząćęłńóśźż]+ [A-ZĄĆĘŁŃÓŚŹŻ][a-ząćęłńóśźż]+,`
anchored at the head. -/
def p4At : List Char → Bool
  | a :: b :: rest => isUpperPL a && isLowerPL b && p4Low1 rest
  | _ => false

/-- `re.search` of the `"Nazwisko Imię,"` pattern. -/
def hasP4 : List Char → Bool
  | [] => false
  | c :: rest => p4At (c :: rest) || hasP4 rest

/-- One stripped lookahead line contributes to `biblio_pattern_count`
(the `elif` chain increments at most once per line, so membership is the
disjunction of the four patterns). -/
def patLine (nl : List Char) : Bool :=
  hasParenYear nl || hasYearPunct nl || hasP3 nl || hasP4 nl

def citMarkers : List String :=
  [", ", " – ", "Warszawa", "Kraków", "London", "New York", "red.", "ed.", "przeł."]

/-- One stripped lookahead line contributes to `citation_like_lines`:
longer than 20 characters, starts with an uppercase letter (Python
`nl[0].isupper()`, modelled for the Latin/Polish alphabets), and contains
a citation marker. -/
def citLine (nl : List Char) : Bool :=
  match nl with
  | [] => false
  | c :: _ => decide (20 < nl.length) && isUpperPL c &&
      citMarkers.any (fun m => containsSub m.data nl)

/-- The non-blank stripped lines of `next_lines[:30]`. -/
def bibWindow (next_lines : List String) : List (List Char) :=
  ((next_lines.take 30).map (fun l => (pyStrip l).data)).filter (fun l => !l.isEmpty)

/-- `is_bibliography_section_start(line, next_lines, line_idx, total_lines)`.

The positional shortcut `line_idx > total_lines * 0.8` is embedded as the
exact rational comparison `4 * total_lines < 5 * line_idx`: the IEEE-754
double `0.8` equals `4/5 + 2⁻⁵²/5`, so for `n` divisible by 5 the product
`n * 0.8` rounds back to exactly `4n/5` (the excess `n·2⁻⁵⁴/(4n/5)` is
below a half-ulp), and otherwise it lies strictly between the two integers
adjacent to `4n/5`; in both cases the float comparison against the integer
`line_idx` agrees with the rational one for any realistic line count. -/
def is_bibliography_section_start
    (line : String) (next_lines : List String) (line_idx total_lines : Nat) : Bool :=
  let s := (pyLower (pyStrip line)).data
  if s.isEmpty || decide (50 < s.length) then false
  else if !headerShape s then false
  else if decide (4 * total_lines < 5 * line_idx) then true
  else decide (3 ≤ (bibWindow next_lines).countP patLine) ||
       decide (5 ≤ (bibWindow next_lines).countP citLine)

/-! ## Table-of-contents locator (`detect_toc_section`) -/

def tocHeadings : List String :=
  ["spis treści", "spis treści:", "spis rzeczy", "spis rzeczy:",
   "table of contents", "contents", "contents:"]

/-- The heading test of `detect_toc_section`:
`line.strip().lower() in tocHeadings`. -/
def isTocHeading (line : String) : Bool :=
  tocHeadings.any (fun h => h.data == (pyStrip line).data.map pyLowerChar)

/-- `isTocHeading` at a document index (`false` past the end). -/
def headingAt (lines : List String) (m : Nat) : Bool :=
  match lines.get? m with
  | some l => isTocHeading l
  | none => false

/-- The stripped text of the line at index `j` (`[]` past the end). -/
def stripAt (lines : List String) (j : Nat) : List Char :=
  match lines.get? j with
  | some l => (pyStrip l).data
  | none => []

/-- `while j < len(lines) and not lines[j].strip(): j += 1`, with fuel
`lines.length`, which bounds the number of loop iterations from any start. -/
def skipBlanksAux (lines : List String) : Nat → Nat → Nat
  | 0, j => j
  | fuel + 1, j =>
    if j < lines.length ∧ stripAt lines j = [] then skipBlanksAux lines fuel (j + 1)
    else j

def skipBlanks (lines : List String) (j : Nat) : Nat :=
  skipBlanksAux lines lines.length j

/-- The tier-1 end-of-TOC test:
`"===Lx4t" in line_content or ("===" in line_content and len(line_content) > 30)`. -/
def isTocMarkerLine (lc : List Char) : Bool :=
  containsSub ("===Lx4t".data) lc ||
  (containsSub ("===".data) lc && decide (30 < lc.length))

/-- The tier-1 scan: `for j in range(tcs, stop)` looking for a marker line;
the window is at most 500 indices wide, which the fuel bounds. -/
def scanMarker (lines : List String) (stop : Nat) : Nat → Nat → Option Nat
  | 0, _ => none
  | fuel + 1, j =>
    if j < stop then
      if isTocMarkerLine (stripAt lines j) then some j
      else scanMarker lines stop fuel (j + 1)
    else none

def frontMatterHit (lc : List Char) : Bool :=
  ["przedmowa", "wstęp", "wprowadzenie"].any
    (fun m => containsSub m.data (lc.map pyLowerChar))

/-- Python `str.isupper` for the Latin/Polish alphabets of this corpus:
at least one cased character and no lowercase cased character. -/
def pyIsUpperStr (l : List Char) : Bool :=
  l.any isUpperPL && l.all (fun c => !(isLowerPL c))

/-- The tier-2 scan: count consecutive blank lines (5 in a row end the TOC
4 before the fifth), or an all-uppercase front-matter heading ends it. -/
def scanTier2 (lines : List String) (stop : Nat) : Nat → Nat → Nat → Option Nat
  | 0, _, _ => none
  | fuel + 1, j, ec =>
    if j < stop then
      if stripAt lines j = [] then
        if 5 ≤ ec + 1 then some (j - 4)
        else scanTier2 lines stop fuel (j + 1) (ec + 1)
      else
        if pyIsUpperStr (stripAt lines j) && frontMatterHit (stripAt lines j) then some j
        else scanTier2 lines stop fuel (j + 1) 0
    else none

/-- The end index computed for a TOC whose heading sits at index `i`. -/
def tocEndFrom (lines : List String) (i : Nat) : Nat :=
  let tcs := skipBlanks lines (i + 1)
  let stop := min (tcs + 500) lines.length
  match scanMarker lines stop 500 tcs with
  | some j => skipBlanks lines (j + 1)
  | none =>
    match scanTier2 lines stop 500 tcs 0 with
    | some e => e
    | none => min (i + 300) lines.length

/-- The scan of `detect_toc_section` for the first heading line. -/
def findTocStart : Nat → List String → Option Nat
  | _, [] => none
  | i, l :: ls => if isTocHeading l then some i else findTocStart (i + 1) ls

/-- `detect_toc_section(lines)`: the Python loop returns on the first
heading line, so it factors into the first-heading scan followed by the
end computation. -/
def detect_toc_section (lines : List String) : Option (Nat × Nat) :=
  match findTocStart 0 lines with
  | none => none
  | some i => some (i, tocEndFrom lines i)

/-! ## The main pass of `clean_book` -/

/-- `lines[i+1 : min(i+31, len(lines))]`, each entry `rstrip("\n")`-ed. -/
def nextLines (all : List String) (i : Nat) : List String :=
  ((all.drop (i + 1)).take 30).map rstripNL

/-- `toc_range and toc_range[0] <= i < toc_range[1]` (a pair is always
truthy in Python, `None` is falsy). -/
def inTocRange (toc : Option (Nat × Nat)) (i : Nat) : Bool :=
  match toc with
  | some (a, b) => decide (a ≤ i) && decide (i < b)
  | none => false

/-- The `for i, line in enumerate(lines)` loop of `clean_book`, carrying
the state `(in_bibliography, blank_streak)`; emitted lines are produced in
order.  `all` is the full document (consulted for the repeated-line set
and the lookahead), `i` the index of the head of the remaining list. -/
def cleanLoop (all : List String) (toc : Option (Nat × Nat)) (total : Nat) :
    Bool → Nat → Nat → List String → List String
  | _, _, _, [] => []
  | inBib, streak, i, l :: ls =>
    if inTocRange toc i then cleanLoop all toc total inBib streak (i + 1) ls
    else if inBib then cleanLoop all toc total true streak (i + 1) ls
    else if repeatedShortMember all (rstripNL l) then
      cleanLoop all toc total false streak (i + 1) ls
    else if is_bibliography_section_start (rstripNL l) (nextLines all i) i total then
      cleanLoop all toc total true streak (i + 1) ls
    else if is_page_number (rstripNL l) then cleanLoop all toc total false streak (i + 1) ls
    else if is_separator (rstripNL l) then cleanLoop all toc total false streak (i + 1) ls
    else if is_isbn_line (rstripNL l) || is_publisher_line (rstripNL l) then
      cleanLoop all toc total false streak (i + 1) ls
    else if blankS (rstripNL l) then
      if 1 < streak + 1 then cleanLoop all toc total false (streak + 1) (i + 1) ls
      else "" :: cleanLoop all toc total false (streak + 1) (i + 1) ls
    else rstripNL l :: cleanLoop all toc total false 0 (i + 1) ls

/-- `while cleaned_lines and cleaned_lines[0].strip() == "": cleaned_lines.pop(0)`. -/
def dropLeadingBlanks : List String → List String
  | [] => []
  | x :: xs => if blankS x then dropLeadingBlanks xs else x :: xs

/-- `while cleaned_lines and cleaned_lines[-1].strip() == "": cleaned_lines.pop()`. -/
def dropTrailingBlanks (l : List String) : List String :=
  (dropLeadingBlanks l.reverse).reverse

/-- `clean_book` on an in-memory document (the list returned by
`readlines()`), producing the list written out. -/
def clean_book (lines : List String) : List String :=
  dropTrailingBlanks (dropLeadingBlanks
    (cleanLoop lines (detect_toc_section lines) lines.length false 0 0 lines))

/-- Python `f.readlines()`: split after every `'\n'`, keeping the
terminator; a final fragment without a terminator is kept as-is. -/
def readLinesAux : List Char → List Char → List (List Char)
  | acc, [] => if acc.isEmpty then [] else [acc.reverse]
  | acc, c :: rest =>
    if c == '\n' then (acc.reverse ++ ['\n']) :: readLinesAux [] rest
    else readLinesAux (c :: acc) rest

def readLines (s : String) : List String :=
  (readLinesAux [] s.data).map String.mk

/-- The output loop `for line in cleaned_lines: f.write(line + "\n")`. -/
def unlines (ls : List String) : String :=
  String.mk (ls.foldr (fun l acc => l.data ++ '\n' :: acc) [])

/-- The whole file-to-file transform of `clean_book`, as text to text. -/
def clean_book_text (s : String) : String :=
  unlines (clean_book (readLines s))

end BookDenoiser

namespace BookDenoiser

/-! ## Helper lemmas on the TOC heading scan -/

lemma findTocStart_none_iff :
    ∀ (ls : List String) (i : Nat),
      findTocStart i ls = none ↔ ∀ l ∈ ls, isTocHeading l = false := by
  intro ls
  induction ls with
  | nil => intro i; simp [findTocStart]
  | cons l ls ih =>
    intro i
    by_cases h : isTocHeading l = true
    · simp [findTocStart, h]
    · simp only [Bool.not_eq_true] at h
      simp [findTocStart, h, ih]

lemma findTocStart_some_spec :
    ∀ (ls : List String) (i s : Nat), findTocStart i ls = some s →
      ∃ k, s = i + k ∧ headingAt ls k = true ∧ ∀ m, m < k → headingAt ls m = false := by
  intro ls
  induction ls with
  | nil => intro i s h; simp [findTocStart] at h
  | cons l ls ih =>
    intro i s h
    by_cases hl : isTocHeading l = true
    · refine ⟨0, ?_, ?_, ?_⟩
      · simp [findTocStart, hl] at h; omega
      · simpa [headingAt] using hl
      · intro m hm; omega
    · simp only [Bool.not_eq_true] at hl
      rw [findTocStart, hl] at h
      simp only [Bool.false_eq_true, if_false] at h
      obtain ⟨k, hk, hh, hmin⟩ := ih (i + 1) s h
      refine ⟨k + 1, by omega, ?_, ?_⟩
      · simpa [headingAt] using hh
      · intro m hm
        cases m with
        | zero => simpa [headingAt] using hl
        | succ m' => simpa [headingAt] using hmin m' (by omega)

lemma findTocStart_eq_of_first :
    ∀ (ls : List String) (k i : Nat), headingAt ls k = true →
      (∀ m, m < k → headingAt ls m = false) → findTocStart i ls = some (i + k) := by
  intro ls
  induction ls with
  | nil => intro k i h; simp [headingAt] at h
  | cons l ls ih =>
    intro k i h hmin
    cases k with
    | zero =>
      have hl : isTocHeading l = true := by simpa [headingAt] using h
      simp [findTocStart, hl]
    | succ k' =>
      have hl : isTocHeading l = false := by simpa [headingAt] using hmin 0 (by omega)
      have hh : headingAt ls k' = true := by simpa [headingAt] using h
      have hmin' : ∀ m, m < k' → headingAt ls m = false := by
        intro m hm; simpa [headingAt] using hmin (m + 1) (by omega)
      rw [findTocStart, hl]
      simp only [Bool.false_eq_true, if_false]
      rw [ih k' (i + 1) hh hmin']
      congr 1
      omega

/-! ## Claims -/

/-- Claim C1: on the input text `"123\n\nHello world.\n\n\n- 45 -\nGoodbye.\n"`,
the full cleaning pipeline produces exactly `"Hello world.\n\nGoodbye.\n"` —
the page-number lines `"123"` and `"- 45 -"` are removed, the run of blank
lines collapses to one, and leading/trailing blanks are trimmed. -/
theorem clean_book_scenario_a :
    clean_book_text "123\n\nHello world.\n\n\n- 45 -\nGoodbye.\n" =
      "Hello world.\n\nGoodbye.\n" := by decide

/-- Claim C9: an input with zero lines produces an empty output and the
pipeline is a total function (no error path exists). -/
theorem clean_book_empty_input :
    clean_book [] = [] ∧ clean_book_text "" = "" := ⟨rfl, rfl⟩

/-- Claim C2: once the bibliography latch is set the remainder of the
document contributes nothing to the output, whatever its content
(first conjunct); and if the locator returns true for the line the main
pass reaches at index `i` (the latch is clear and the line survived the
TOC-range and repeated-line checks that precede the locator), then neither
that line nor any later line contributes a line to the output (second
conjunct, for every possible remainder `ls`). -/
theorem bibliography_latch_monotone :
    (∀ all toc total streak i ls, cleanLoop all toc total true streak i ls = []) ∧
    (∀ all toc total streak i l ls,
      inTocRange toc i = false →
      repeatedShortMember all (rstripNL l) = false →
      is_bibliography_section_start (rstripNL l) (nextLines all i) i total = true →
      cleanLoop all toc total false streak i (l :: ls) = []) := by
  have base : ∀ all toc total ls streak i, cleanLoop all toc total true streak i ls = [] := by
    intro all toc total ls
    induction ls with
    | nil => intro streak i; rfl
    | cons l ls ih =>
      intro streak i
      by_cases h : inTocRange toc i = true
      · simp [cleanLoop, h, ih]
      · simp only [Bool.not_eq_true] at h
        simp [cleanLoop, h, ih]
  refine ⟨fun all toc total streak i ls => base all toc total ls streak i, ?_⟩
  intro all toc total streak i l ls h1 h2 h3
  simp [cleanLoop, h1, h2, h3, base all toc total ls]

/-- Witness for C2 at a concrete input: a `"Bibliografia"` line at index 5
of a 6-line document (past the 80% mark) fires the locator, and the output
from that point on is empty. -/
theorem bibliography_latch_monotone_witness :
    inTocRange none 5 = false ∧
    repeatedShortMember ["a", "b", "c", "d", "e", "Bibliografia"] (rstripNL "Bibliografia") = false ∧
    is_bibliography_section_start (rstripNL "Bibliografia")
      (nextLines ["a", "b", "c", "d", "e", "Bibliografia"] 5) 5 6 = true ∧
    cleanLoop ["a", "b", "c", "d", "e", "Bibliografia"] none 6 false 0 5 ["Bibliografia"] = [] :=
  ⟨by decide, by decide, by decide,
    bibliography_latch_monotone.2 ["a", "b", "c", "d", "e", "Bibliografia"] none 6 0 5
      "Bibliografia" [] (by decide) (by decide) (by decide)⟩

/-- Claim C4 counterexample: the claim says every TOC heading phrase is
accepted with or without a trailing colon, naming `"table of contents:"`
as accepted; but the code's heading list omits that variant, so the line
is not recognised and no TOC range is produced for a document containing
it. -/
theorem toc_heading_colon_counterexample :
    isTocHeading "table of contents:" = false ∧
    detect_toc_section ["table of contents:"] = none := by decide

/-- Claim C4 (amended): a line starts a TOC range exactly when its
trimmed, lowercased text equals one of the code's seven heading phrases —
`spis treści`, `spis rzeczy` and `contents` each with or without a
trailing colon, plus `table of contents` without a colon only.  Only the
first such heading is used, at most one TOC range is produced (the
detector returns a single optional pair), and if no heading occurs the
result is `none`. -/
theorem toc_heading_first_match :
    ∀ lines : List String,
      (detect_toc_section lines = none ↔ ∀ l ∈ lines, isTocHeading l = false) ∧
      (∀ s e, detect_toc_section lines = some (s, e) →
        headingAt lines s = true ∧ ∀ m, m < s → headingAt lines m = false) := by
  intro lines
  constructor
  · unfold detect_toc_section
    cases h : findTocStart 0 lines with
    | none =>
      simpa using (findTocStart_none_iff lines 0).mp h
    | some i =>
      simp only [Option.some.injEq]
      constructor
      · intro hfalse; cases hfalse
      · intro hall
        have := (findTocStart_none_iff lines 0).mpr hall
        rw [h] at this
        cases this
  · intro s e hdet
    unfold detect_toc_section at hdet
    cases hf : findTocStart 0 lines with
    | none => rw [hf] at hdet; cases hdet
    | some i =>
      rw [hf] at hdet
      have hi : i = s := by
        have := congrArg (fun o => Option.map Prod.fst o) hdet
        simpa using this
      obtain ⟨k, hk, hh, hmin⟩ := findTocStart_some_spec lines 0 i hf
      have hks : k = s := by omega
      exact ⟨hks ▸ hh, fun m hm => hmin m (by omega)⟩

/-- Witness for C4 (amended) at a concrete input: in `["x", "contents:"]`
the detector returns the range starting at index 1, the heading test holds
there and fails strictly before it. -/
theorem toc_heading_first_match_witness :
    headingAt ["x", "contents:"] 1 = true ∧
    ∀ m, m < 1 → headingAt ["x", "contents:"] m = false :=
  (toc_heading_first_match ["x", "contents:"]).2 1 2 (by decide)

end BookDenoiser

namespace BookDenoiser

/-- Claim C5: for a header-shaped line (trimmed lowercased text non-empty,
at most 50 characters, matching a bibliography keyword exactly or with the
chapter-number prefix / trailing punctuation), an index beyond 80% of the
document makes the locator return true for every possible lookahead
window — the window is universally quantified and never consulted. -/
theorem bib_positional_shortcut :
    ∀ (line : String) (nls : List String) (i N : Nat),
      (pyLower (pyStrip line)).data ≠ [] →
      (pyLower (pyStrip line)).data.length ≤ 50 →
      headerShape ((pyLower (pyStrip line)).data) = true →
      4 * N < 5 * i →
      is_bibliography_section_start line nls i N = true := by
  intro line nls i N h1 h2 h3 h4
  have e1 : ((pyLower (pyStrip line)).data).isEmpty = false := by
    cases h : (pyLower (pyStrip line)).data with
    | nil => exact absurd h h1
    | cons a t => rfl
  have h2s : (pyLower (pyStrip line)).length ≤ 50 := h2
  simp [is_bibliography_section_start, e1, h3, Nat.not_lt.mpr h2, Nat.not_lt.mpr h2s, h4]

/-- The long filler line of the Scenario B witness document (longer than
60 characters, hence immune to the repeated-short-line filter). -/
def fillerLong : String :=
  "This filler narrative line is deliberately longer than sixty characters."

/-- Scenario B document: `"Bibliografia"` at index 16 of 19 (84%),
followed by unrelated short lines. -/
def scenarioBdoc : List String :=
  List.replicate 16 fillerLong ++ ["Bibliografia", "after one", "after two"]

/-- Witness for C5: the concrete `"Bibliografia"` line past the 80% mark
fires the locator (via the theorem), and the whole pipeline truncates the
document immediately before it. -/
theorem bib_positional_shortcut_witness :
    (pyLower (pyStrip "Bibliografia")).data ≠ [] ∧
    (pyLower (pyStrip "Bibliografia")).data.length ≤ 50 ∧
    headerShape ((pyLower (pyStrip "Bibliografia")).data) = true ∧
    4 * 19 < 5 * 16 ∧
    is_bibliography_section_start "Bibliografia" (nextLines scenarioBdoc 16) 16 19 = true ∧
    clean_book scenarioBdoc = List.replicate 16 fillerLong :=
  ⟨by decide, by decide, by decide, by decide,
   bib_positional_shortcut "Bibliografia" (nextLines scenarioBdoc 16) 16 19
     (by decide) (by decide) (by decide) (by decide),
   by decide⟩

/-- Claim C6: for a header-shaped line at an index not past 80% of the
document, the locator's verdict is exactly the lookahead score — true iff
the non-blank stripped lines of the 30-line window contain at least 3
bibliography-pattern lines or at least 5 citation-like lines. -/
theorem bib_window_verification :
    ∀ (line : String) (nls : List String) (i N : Nat),
      (pyLower (pyStrip line)).data ≠ [] →
      (pyLower (pyStrip line)).data.length ≤ 50 →
      headerShape ((pyLower (pyStrip line)).data) = true →
      5 * i ≤ 4 * N →
      is_bibliography_section_start line nls i N =
        (decide (3 ≤ (bibWindow nls).countP patLine) ||
         decide (5 ≤ (bibWindow nls).countP citLine)) := by
  intro line nls i N h1 h2 h3 h4
  have e1 : ((pyLower (pyStrip line)).data).isEmpty = false := by
    cases h : (pyLower (pyStrip line)).data with
    | nil => exact absurd h h1
    | cons a t => rfl
  have h2s : (pyLower (pyStrip line)).length ≤ 50 := h2
  simp [is_bibliography_section_start, e1, h3, Nat.not_lt.mpr h2, Nat.not_lt.mpr h2s,
    Nat.not_lt.mpr h4]

/-- Scenario C document: `"Bibliografia"` at index 2 of 20 (10%), followed
by plain narrative sentences with no citation-shaped content. -/
def scenarioCdoc : List String :=
  ["opening words of the tale",
   "another calm evening passed",
   "Bibliografia",
   "the quiet village slept under soft rain",
   "nothing stirred along the old road",
   "a lantern glowed in the last window",
   "the baker banked his oven for the night",
   "smoke rose thin above the rooftops",
   "an owl crossed the dark yard",
   "the river ran low between its stones",
   "frost gathered on the meadow grass",
   "the church bell stayed silent till dawn",
   "morning came grey and without wind",
   "the shepherd led his flock uphill",
   "children carried water from the well",
   "the market square filled slowly",
   "carts rolled in from the far farms",
   "bread and salt changed hands quietly",
   "by noon the sun had burned the mist",
   "so the ordinary day went on"]

/-- Witness for C6: the concrete early `"Bibliografia"` heading has an
all-narrative window, the score is below both thresholds, the locator
returns false (via the theorem), and the pipeline keeps the entire
document — output continues past the heading. -/
theorem bib_window_verification_witness :
    (pyLower (pyStrip "Bibliografia")).data ≠ [] ∧
    (pyLower (pyStrip "Bibliografia")).data.length ≤ 50 ∧
    headerShape ((pyLower (pyStrip "Bibliografia")).data) = true ∧
    5 * 2 ≤ 4 * 20 ∧
    is_bibliography_section_start "Bibliografia" (nextLines scenarioCdoc 2) 2 20 =
      (decide (3 ≤ (bibWindow (nextLines scenarioCdoc 2)).countP patLine) ||
       decide (5 ≤ (bibWindow (nextLines scenarioCdoc 2)).countP citLine)) ∧
    is_bibliography_section_start "Bibliografia" (nextLines scenarioCdoc 2) 2 20 = false ∧
    clean_book scenarioCdoc = scenarioCdoc :=
  ⟨by decide, by decide, by decide, by decide,
   bib_window_verification "Bibliografia" (nextLines scenarioCdoc 2) 2 20
     (by decide) (by decide) (by decide) (by decide),
   by decide, by decide⟩

end BookDenoiser

namespace BookDenoiser

/-! ## Helper lemmas on the main loop's output -/

lemma cleanLoop_mem (all : List String) (toc : Option (Nat × Nat)) (total : Nat) :
    ∀ (ls : List String) (inBib : Bool) (streak i : Nat) (x : String),
      x ∈ cleanLoop all toc total inBib streak i ls →
      x = "" ∨ ∃ l, l ∈ ls ∧ x = rstripNL l ∧ blankS (rstripNL l) = false ∧
        repeatedShortMember all (rstripNL l) = false := by
  intro ls
  induction ls with
  | nil => intro inBib streak i x hx; simp [cleanLoop] at hx
  | cons l ls ih =>
    intro inBib streak i x hx
    have weaken :
        (x = "" ∨ ∃ l', l' ∈ ls ∧ x = rstripNL l' ∧ blankS (rstripNL l') = false ∧
          repeatedShortMember all (rstripNL l') = false) →
        (x = "" ∨ ∃ l', l' ∈ l :: ls ∧ x = rstripNL l' ∧ blankS (rstripNL l') = false ∧
          repeatedShortMember all (rstripNL l') = false) := by
      rintro (h | ⟨l', hl', hp⟩)
      · exact Or.inl h
      · exact Or.inr ⟨l', List.mem_cons_of_mem _ hl', hp⟩
    simp only [cleanLoop] at hx
    by_cases h1 : inTocRange toc i = true
    · rw [if_pos h1] at hx; exact weaken (ih _ _ _ _ hx)
    rw [if_neg h1] at hx
    by_cases h2 : inBib = true
    · rw [if_pos h2] at hx; exact weaken (ih _ _ _ _ hx)
    rw [if_neg h2] at hx
    by_cases h3 : repeatedShortMember all (rstripNL l) = true
    · rw [if_pos h3] at hx; exact weaken (ih _ _ _ _ hx)
    rw [if_neg h3] at hx
    by_cases h4 : is_bibliography_section_start (rstripNL l) (nextLines all i) i total = true
    · rw [if_pos h4] at hx; exact weaken (ih _ _ _ _ hx)
    rw [if_neg h4] at hx
    by_cases h5 : is_page_number (rstripNL l) = true
    · rw [if_pos h5] at hx; exact weaken (ih _ _ _ _ hx)
    rw [if_neg h5] at hx
    by_cases h6 : is_separator (rstripNL l) = true
    · rw [if_pos h6] at hx; exact weaken (ih _ _ _ _ hx)
    rw [if_neg h6] at hx
    by_cases h7 : (is_isbn_line (rstripNL l) || is_publisher_line (rstripNL l)) = true
    · rw [if_pos h7] at hx; exact weaken (ih _ _ _ _ hx)
    rw [if_neg h7] at hx
    by_cases h8 : blankS (rstripNL l) = true
    · rw [if_pos h8] at hx
      by_cases h9 : 1 < streak + 1
      · rw [if_pos h9] at hx; exact weaken (ih _ _ _ _ hx)
      · rw [if_neg h9] at hx
        rcases List.mem_cons.mp hx with rfl | hx'
        · exact Or.inl rfl
        · exact weaken (ih _ _ _ _ hx')
    · rw [if_neg h8] at hx
      rcases List.mem_cons.mp hx with rfl | hx'
      · refine Or.inr ⟨l, List.mem_cons_self l ls, rfl, ?_, ?_⟩
        · simpa using h8
        · simpa using h3
      · exact weaken (ih _ _ _ _ hx')

lemma dropLeadingBlanks_subset : ∀ (l : List String) (x : String),
    x ∈ dropLeadingBlanks l → x ∈ l := by
  intro l
  induction l with
  | nil => intro x hx; simp [dropLeadingBlanks] at hx
  | cons a l ih =>
    intro x hx
    by_cases h : blankS a = true
    · rw [dropLeadingBlanks, if_pos h] at hx
      exact List.mem_cons_of_mem _ (ih _ hx)
    · rw [dropLeadingBlanks, if_neg h] at hx
      exact hx

lemma dropTrailingBlanks_subset : ∀ (l : List String) (x : String),
    x ∈ dropTrailingBlanks l → x ∈ l := by
  intro l x hx
  unfold dropTrailingBlanks at hx
  have := dropLeadingBlanks_subset _ _ (List.mem_reverse.mp hx)
  exact List.mem_reverse.mp this

/-- Claim C10: every line of the cleaned output is either the empty string
or some input line reproduced verbatim with only its trailing newline
removed, and in the latter case the line is non-blank — whitespace inside
blank lines never reaches the output. -/
theorem output_lines_verbatim :
    ∀ (lines : List String) (x : String), x ∈ clean_book lines →
      x = "" ∨ ∃ l, l ∈ lines ∧ x = rstripNL l ∧ blankS x = false := by
  intro lines x hx
  have hx' : x ∈ cleanLoop lines (detect_toc_section lines) lines.length false 0 0 lines :=
    dropLeadingBlanks_subset _ _ (dropTrailingBlanks_subset _ _ hx)
  rcases cleanLoop_mem lines (detect_toc_section lines) lines.length lines false 0 0 x hx'
    with h | ⟨l, hl, hxe, hbl, _⟩
  · exact Or.inl h
  · exact Or.inr ⟨l, hl, hxe, hxe ▸ hbl⟩

/-- Witness for C10 at a concrete input. -/
theorem output_lines_verbatim_witness :
    "Hello" = "" ∨ ∃ l, l ∈ ["Hello"] ∧ "Hello" = rstripNL l ∧ blankS "Hello" = false :=
  output_lines_verbatim ["Hello"] "Hello" (by decide)

/-- Claim C7: a line text that is non-empty after trimming and at most 60
characters long, occurring exactly 5 times (by exact equality of trimmed
text over the whole document), is in the repeated-line set and no output
line carries that trimmed text; occurring exactly 4 times it is not in the
set, and a line bearing it that reaches the main pass with the latch clear
and no other filter matching is emitted verbatim. -/
theorem repeated_line_threshold :
    ∀ (lines : List String) (t : String),
      t.data ≠ [] → t.data.length ≤ 60 →
      ((countTrim lines t = 5 →
        (∀ raw, pyStrip raw = t → repeatedShortMember lines raw = true) ∧
        (∀ x, x ∈ clean_book lines → pyStrip x ≠ t)) ∧
       (countTrim lines t = 4 →
        (∀ raw, pyStrip raw = t → repeatedShortMember lines raw = false) ∧
        (∀ toc total streak i l ls, pyStrip (rstripNL l) = t →
          inTocRange toc i = false →
          is_bibliography_section_start (rstripNL l) (nextLines lines i) i total = false →
          is_page_number (rstripNL l) = false →
          is_separator (rstripNL l) = false →
          is_isbn_line (rstripNL l) = false →
          is_publisher_line (rstripNL l) = false →
          cleanLoop lines toc total false streak i (l :: ls) =
            rstripNL l :: cleanLoop lines toc total false 0 (i + 1) ls))) := by
  intro lines t ht hlen
  have hempty : t.data.isEmpty = false := by
    cases h : t.data with
    | nil => exact absurd h ht
    | cons a l => rfl
  constructor
  · intro h5
    have hmem : ∀ raw, pyStrip raw = t → repeatedShortMember lines raw = true := by
      intro raw hr
      have hlenS : t.length ≤ 60 := hlen
      simp [repeatedShortMember, hr, hempty, hlen, hlenS, h5]
    refine ⟨hmem, ?_⟩
    intro x hx hcontra
    have hx' : x ∈ cleanLoop lines (detect_toc_section lines) lines.length false 0 0 lines :=
      dropLeadingBlanks_subset _ _ (dropTrailingBlanks_subset _ _ hx)
    rcases cleanLoop_mem lines (detect_toc_section lines) lines.length lines false 0 0 x hx'
      with rfl | ⟨l, _, hxe, _, hrep⟩
    · exact ht (by rw [← hcontra]; rfl)
    · have htrue := hmem x hcontra
      rw [hxe] at htrue
      rw [hrep] at htrue
      cases htrue
  · intro h4
    have hmem4 : ∀ raw, pyStrip raw = t → repeatedShortMember lines raw = false := by
      intro raw hr
      simp [repeatedShortMember, hr, h4]
    refine ⟨hmem4, ?_⟩
    intro toc total streak i l ls hstrip htoc hbib hpage hsep hisbn hpub
    have hrep : repeatedShortMember lines (rstripNL l) = false := hmem4 _ hstrip
    have hblank : blankS (rstripNL l) = false := by
      simp [blankS, hstrip, hempty]
    simp [cleanLoop, htoc, hrep, hbib, hpage, hsep, hisbn, hpub, hblank]

/-- A running header occurring 5 times. -/
def headerDoc5 : List String :=
  ["Hdr", "body one text", "Hdr", "body two text", "Hdr",
   "body three text", "Hdr", "body four text", "Hdr"]

/-- The same running header occurring only 4 times. -/
def headerDoc4 : List String :=
  ["Hdr", "body one text", "Hdr", "body two text", "Hdr", "body three text", "Hdr"]

/-- Witness for C7: with 5 occurrences `"Hdr"` is in the set and off the
output; with 4 occurrences it is not in the set and the pipeline keeps
every occurrence. -/
theorem repeated_line_threshold_witness :
    repeatedShortMember headerDoc5 "Hdr" = true ∧
    pyStrip "body one text" ≠ "Hdr" ∧
    repeatedShortMember headerDoc4 "Hdr" = false ∧
    clean_book headerDoc5 =
      ["body one text", "body two text", "body three text", "body four text"] ∧
    clean_book headerDoc4 = headerDoc4 :=
  ⟨((repeated_line_threshold headerDoc5 "Hdr" (by decide) (by decide)).1 (by decide)).1
      "Hdr" (by decide),
   ((repeated_line_threshold headerDoc5 "Hdr" (by decide) (by decide)).1 (by decide)).2
      "body one text" (by decide),
   ((repeated_line_threshold headerDoc4 "Hdr" (by decide) (by decide)).2 (by decide)).1
      "Hdr" (by decide),
   by decide, by decide⟩

end BookDenoiser

namespace BookDenoiser

/-! ## Helper lemmas for blank-line normalization -/

lemma cleanLoop_head_nonblank (all : List String) (toc : Option (Nat × Nat)) (total : Nat) :
    ∀ (ls : List String) (inBib : Bool) (streak i : Nat), 1 ≤ streak →
      ∀ x, (cleanLoop all toc total inBib streak i ls).head? = some x → blankS x = false := by
  intro ls
  induction ls with
  | nil => intro inBib streak i _ x hx; simp [cleanLoop] at hx
  | cons l ls ih =>
    intro inBib streak i hstreak x hx
    simp only [cleanLoop] at hx
    by_cases h1 : inTocRange toc i = true
    · rw [if_pos h1] at hx; exact ih _ _ _ hstreak x hx
    rw [if_neg h1] at hx
    by_cases h2 : inBib = true
    · rw [if_pos h2] at hx; exact ih _ _ _ hstreak x hx
    rw [if_neg h2] at hx
    by_cases h3 : repeatedShortMember all (rstripNL l) = true
    · rw [if_pos h3] at hx; exact ih _ _ _ hstreak x hx
    rw [if_neg h3] at hx
    by_cases h4 : is_bibliography_section_start (rstripNL l) (nextLines all i) i total = true
    · rw [if_pos h4] at hx; exact ih _ _ _ hstreak x hx
    rw [if_neg h4] at hx
    by_cases h5 : is_page_number (rstripNL l) = true
    · rw [if_pos h5] at hx; exact ih _ _ _ hstreak x hx
    rw [if_neg h5] at hx
    by_cases h6 : is_separator (rstripNL l) = true
    · rw [if_pos h6] at hx; exact ih _ _ _ hstreak x hx
    rw [if_neg h6] at hx
    by_cases h7 : (is_isbn_line (rstripNL l) || is_publisher_line (rstripNL l)) = true
    · rw [if_pos h7] at hx; exact ih _ _ _ hstreak x hx
    rw [if_neg h7] at hx
    by_cases h8 : blankS (rstripNL l) = true
    · rw [if_pos h8] at hx
      by_cases h9 : 1 < streak + 1
      · rw [if_pos h9] at hx; exact ih _ _ _ (by omega) x hx
      · omega
    · rw [if_neg h8] at hx
      simp only [List.head?_cons, Option.some.injEq] at hx
      subst hx
      simpa using h8

lemma cleanLoop_chain (all : List String) (toc : Option (Nat × Nat)) (total : Nat) :
    ∀ (ls : List String) (inBib : Bool) (streak i : Nat),
      List.Chain' (fun a b => ¬(blankS a = true ∧ blankS b = true))
        (cleanLoop all toc total inBib streak i ls) := by
  intro ls
  induction ls with
  | nil => intro inBib streak i; simp [cleanLoop]
  | cons l ls ih =>
    intro inBib streak i
    simp only [cleanLoop]
    by_cases h1 : inTocRange toc i = true
    · rw [if_pos h1]; exact ih _ _ _
    rw [if_neg h1]
    by_cases h2 : inBib = true
    · rw [if_pos h2]; exact ih _ _ _
    rw [if_neg h2]
    by_cases h3 : repeatedShortMember all (rstripNL l) = true
    · rw [if_pos h3]; exact ih _ _ _
    rw [if_neg h3]
    by_cases h4 : is_bibliography_section_start (rstripNL l) (nextLines all i) i total = true
    · rw [if_pos h4]; exact ih _ _ _
    rw [if_neg h4]
    by_cases h5 : is_page_number (rstripNL l) = true
    · rw [if_pos h5]; exact ih _ _ _
    rw [if_neg h5]
    by_cases h6 : is_separator (rstripNL l) = true
    · rw [if_pos h6]; exact ih _ _ _
    rw [if_neg h6]
    by_cases h7 : (is_isbn_line (rstripNL l) || is_publisher_line (rstripNL l)) = true
    · rw [if_pos h7]; exact ih _ _ _
    rw [if_neg h7]
    by_cases h8 : blankS (rstripNL l) = true
    · rw [if_pos h8]
      by_cases h9 : 1 < streak + 1
      · rw [if_pos h9]; exact ih _ _ _
      · rw [if_neg h9]
        refine List.chain'_cons'.mpr ⟨?_, ih _ _ _⟩
        intro y hy hcontra
        have hnb := cleanLoop_head_nonblank all toc total ls false (streak + 1) (i + 1)
          (by omega) y (Option.mem_def.mp hy)
        rw [hnb] at hcontra
        cases hcontra.2
    · rw [if_neg h8]
      refine List.chain'_cons'.mpr ⟨?_, ih _ _ _⟩
      intro y _ hcontra
      rw [Bool.not_eq_true] at h8
      rw [h8] at hcontra
      cases hcontra.1

lemma dropLeadingBlanks_chain {R : String → String → Prop} :
    ∀ l, List.Chain' R l → List.Chain' R (dropLeadingBlanks l) := by
  intro l
  induction l with
  | nil => intro h; exact h
  | cons a l ih =>
    intro h
    by_cases hb : blankS a = true
    · rw [dropLeadingBlanks, if_pos hb]
      exact ih (List.chain'_cons'.mp h).2
    · rw [dropLeadingBlanks, if_neg hb]
      exact h

lemma dropLeadingBlanks_head_nonblank :
    ∀ (l : List String) (x : String),
      (dropLeadingBlanks l).head? = some x → blankS x = false := by
  intro l
  induction l with
  | nil => intro x hx; simp [dropLeadingBlanks] at hx
  | cons a l ih =>
    intro x hx
    by_cases hb : blankS a = true
    · rw [dropLeadingBlanks, if_pos hb] at hx
      exact ih x hx
    · rw [dropLeadingBlanks, if_neg hb] at hx
      simp only [List.head?_cons, Option.some.injEq] at hx
      subst hx
      simpa using hb

lemma dropLeadingBlanks_suffix :
    ∀ l : List String, ∃ t, l = t ++ dropLeadingBlanks l := by
  intro l
  induction l with
  | nil => exact ⟨[], rfl⟩
  | cons a l ih =>
    by_cases hb : blankS a = true
    · obtain ⟨t, ht⟩ := ih
      refine ⟨a :: t, ?_⟩
      rw [dropLeadingBlanks, if_pos hb, List.cons_append, ← ht]
    · exact ⟨[], by rw [dropLeadingBlanks, if_neg hb]; rfl⟩

lemma dropTrailingBlanks_head? :
    ∀ (m : List String) (x : String),
      (dropTrailingBlanks m).head? = some x → m.head? = some x := by
  intro m x hx
  unfold dropTrailingBlanks at hx
  obtain ⟨t, ht⟩ := dropLeadingBlanks_suffix m.reverse
  have hm : m = (dropLeadingBlanks m.reverse).reverse ++ t.reverse := by
    have := congrArg List.reverse ht
    rw [List.reverse_reverse, List.reverse_append] at this
    exact this
  cases hu : (dropLeadingBlanks m.reverse).reverse with
  | nil => rw [hu] at hx; simp at hx
  | cons b v =>
    rw [hu] at hx
    rw [hm, hu]
    simpa using hx

/-- Claim C3: the cleaned output never contains two consecutive blank
lines, and when non-empty its first and last lines are non-blank (blank
meaning the line strips to the empty string). -/
theorem blank_normalization :
    ∀ lines : List String,
      List.Chain' (fun a b => ¬(blankS a = true ∧ blankS b = true)) (clean_book lines) ∧
      (∀ x, (clean_book lines).head? = some x → blankS x = false) ∧
      (∀ x, (clean_book lines).getLast? = some x → blankS x = false) := by
  intro lines
  have hL := cleanLoop_chain lines (detect_toc_section lines) lines.length lines false 0 0
  refine ⟨?_, ?_, ?_⟩
  · unfold clean_book dropTrailingBlanks
    refine List.chain'_reverse.mpr ?_
    refine dropLeadingBlanks_chain _ ?_
    refine List.chain'_reverse.mp ?_
    rw [List.reverse_reverse]
    exact dropLeadingBlanks_chain _ hL
  · intro x hx
    unfold clean_book at hx
    have := dropTrailingBlanks_head? _ x hx
    exact dropLeadingBlanks_head_nonblank _ x this
  · intro x hx
    unfold clean_book dropTrailingBlanks at hx
    rw [List.getLast?_reverse] at hx
    exact dropLeadingBlanks_head_nonblank _ x hx

/-- Witness for C3 at a concrete input: the cleaned form of
`["", "Hi", "", "", "Yo", ""]` satisfies the chain property and its
computed first and last lines are non-blank. -/
theorem blank_normalization_witness :
    List.Chain' (fun a b => ¬(blankS a = true ∧ blankS b = true))
      (clean_book ["", "Hi", "", "", "Yo", ""]) ∧
    blankS "Hi" = false ∧ blankS "Yo" = false :=
  ⟨(blank_normalization ["", "Hi", "", "", "Yo", ""]).1,
   (blank_normalization ["", "Hi", "", "", "Yo", ""]).2.1 "Hi" (by decide),
   (blank_normalization ["", "Hi", "", "", "Yo", ""]).2.2 "Yo" (by decide)⟩

end BookDenoiser

namespace BookDenoiser

/-! ## Helper lemmas for the TOC end computation -/

lemma skipBlanksAux_spec (lines : List String) :
    ∀ (fuel j : Nat), lines.length ≤ fuel + j →
      j ≤ skipBlanksAux lines fuel j ∧
      (∀ m, j ≤ m → m < skipBlanksAux lines fuel j → stripAt lines m = []) ∧
      (skipBlanksAux lines fuel j < lines.length →
        stripAt lines (skipBlanksAux lines fuel j) ≠ []) := by
  intro fuel
  induction fuel with
  | zero =>
    intro j hj
    refine ⟨Nat.le_refl j, ?_, ?_⟩
    · intro m h1 h2
      rw [skipBlanksAux] at h2
      omega
    · intro h
      rw [skipBlanksAux] at h
      omega
  | succ fuel ih =>
    intro j hj
    by_cases hc : j < lines.length ∧ stripAt lines j = []
    · rw [skipBlanksAux, if_pos hc]
      obtain ⟨ih1, ih2, ih3⟩ := ih (j + 1) (by omega)
      refine ⟨by omega, ?_, ih3⟩
      intro m h1 h2
      rcases Nat.eq_or_lt_of_le h1 with rfl | h1'
      · exact hc.2
      · exact ih2 m (by omega) h2
    · rw [skipBlanksAux, if_neg hc]
      refine ⟨Nat.le_refl j, ?_, ?_⟩
      · intro m h1 h2; omega
      · intro hlt heq
        exact hc ⟨hlt, heq⟩

lemma scanMarker_finds (lines : List String) (stop : Nat) :
    ∀ (fuel j0 j : Nat), j0 ≤ j → j < stop → stop ≤ fuel + j0 →
      isTocMarkerLine (stripAt lines j) = true →
      (∀ m, m < j → j0 ≤ m → isTocMarkerLine (stripAt lines m) = false) →
      scanMarker lines stop fuel j0 = some j := by
  intro fuel
  induction fuel with
  | zero => intro j0 j h1 h2 h3 _ _; omega
  | succ fuel ih =>
    intro j0 j h1 h2 h3 hj hmin
    have hj0 : j0 < stop := by omega
    rcases Nat.eq_or_lt_of_le h1 with rfl | hlt
    · rw [scanMarker, if_pos hj0, if_pos hj]
    · have hm0 : isTocMarkerLine (stripAt lines j0) = false := hmin j0 hlt (Nat.le_refl _)
      rw [scanMarker, if_pos hj0, if_neg (by simp [hm0])]
      exact ih (j0 + 1) j (by omega) h2 (by omega) hj
        (fun m hm1 hm2 => hmin m hm1 (by omega))

/-- Claim C8: with the first TOC heading at index `s`, and `j` the
earliest index in the 500-line window starting at the first non-blank line
after `s` whose stripped text contains the reserved marker `===Lx4t` or a
`===` run on a line longer than 30 characters, the detector returns the
range `[s, k)` where `k` is the first index after `j` holding a non-blank
line (every index strictly between is blank), and the main pass drops
every line whose index lies in the range. -/
theorem toc_tier1_range :
    ∀ (lines : List String) (s j tcs stop k : Nat),
      headingAt lines s = true →
      (∀ m, m < s → headingAt lines m = false) →
      tcs = skipBlanks lines (s + 1) →
      stop = min (tcs + 500) lines.length →
      tcs ≤ j → j < stop →
      isTocMarkerLine (stripAt lines j) = true →
      (∀ m, m < j → tcs ≤ m → isTocMarkerLine (stripAt lines m) = false) →
      k = skipBlanks lines (j + 1) →
      (detect_toc_section lines = some (s, k) ∧
       (∀ m, j + 1 ≤ m → m < k → stripAt lines m = []) ∧
       (k < lines.length → stripAt lines k ≠ []) ∧
       (∀ total inBib streak i l ls, s ≤ i → i < k →
         cleanLoop lines (some (s, k)) total inBib streak i (l :: ls) =
           cleanLoop lines (some (s, k)) total inBib streak (i + 1) ls)) := by
  intro lines s j tcs stop k hh hmin htcs hstop h1 h2 hm hearliest hk
  have hfind : findTocStart 0 lines = some s := by
    have := findTocStart_eq_of_first lines s 0 hh hmin
    simpa using this
  have hstop500 : stop ≤ 500 + tcs := by omega
  have hscan : scanMarker lines stop 500 tcs = some j :=
    scanMarker_finds lines stop 500 tcs j h1 h2 hstop500 hm hearliest
  obtain ⟨hb1, hb2, hb3⟩ := skipBlanksAux_spec lines lines.length (j + 1) (by omega)
  refine ⟨?_, ?_, ?_, ?_⟩
  · have hEnd : tocEndFrom lines s = k := by
      simp only [tocEndFrom]
      rw [← htcs, ← hstop, hscan, hk]
    simp only [detect_toc_section, hfind, hEnd]
  · intro m hm1 hm2
    rw [hk] at hm2
    exact hb2 m hm1 hm2
  · intro hlt
    rw [hk] at hlt ⊢
    exact hb3 hlt
  · intro total inBib streak i l ls hi1 hi2
    have hin : inTocRange (some (s, k)) i = true := by
      simp [inTocRange, hi1, hi2]
    simp only [cleanLoop]
    rw [if_pos hin]

/-- Scenario D document (shrunk): heading at index 1, a 31-character
`===` marker line at index 4, a blank at 5, content resuming at 6. -/
def scenarioDdoc : List String :=
  ["intro", "Spis treści", "", "Rozdzial pierwszy 9",
   "===============================", "", "Content begins"]

/-- Witness for C8: on the concrete document the detector returns the
range `[1, 6)`, the skipped tail of the range is blank, index 6 is
non-blank, a line inside the range is dropped by the main pass, and the
full pipeline keeps exactly the text outside the range. -/
theorem toc_tier1_range_witness :
    detect_toc_section scenarioDdoc = some (1, 6) ∧
    stripAt scenarioDdoc 5 = [] ∧
    (6 < scenarioDdoc.length → stripAt scenarioDdoc 6 ≠ []) ∧
    cleanLoop scenarioDdoc (some (1, 6)) 7 false 0 3 ["x"] =
      cleanLoop scenarioDdoc (some (1, 6)) 7 false 0 4 [] ∧
    clean_book scenarioDdoc = ["intro", "Content begins"] := by
  have h := toc_tier1_range scenarioDdoc 1 4 3 7 6 (by decide) (by decide) (by decide)
    (by decide) (by decide) (by decide) (by decide) (by decide) (by decide)
  exact ⟨h.1, h.2.1 5 (by decide) (by decide), h.2.2.1, h.2.2.2 7 false 0 3 "x" []
    (by decide) (by decide), by decide⟩

end BookDenoiser
